import Mathlib

/-!
Verification development for the `raytrace.cpp` ray tracer.

The C++ source is shallowly embedded over the real numbers: `float`
arithmetic is idealised as exact real arithmetic, and `std::sqrt` becomes
`Real.sqrt`.  The slab-based box intersection divides by ray-direction
components that may be zero; IEEE-754 produces signed infinities (and NaN
for 0/0) there and only ever compares the results, so those quotients are
modelled by the four-constructor type `FVal` (finite / +inf / -inf / NaN)
with the IEEE comparison semantics (every comparison with NaN is false).
The real model has a single zero, so the sign of an infinite quotient is
taken from the numerator alone.
-/

noncomputable section

/-- Vector of three real components, mirroring `struct vec3`. -/
structure Vec3 where
  x : ℝ
  y : ℝ
  z : ℝ

namespace Vec3

/-- Componentwise addition, `vec3::operator+`. -/
def add (a b : Vec3) : Vec3 := ⟨a.x + b.x, a.y + b.y, a.z + b.z⟩

/-- Componentwise subtraction, `vec3::operator-`. -/
def sub (a b : Vec3) : Vec3 := ⟨a.x - b.x, a.y - b.y, a.z - b.z⟩

/-- Componentwise negation, unary `vec3::operator-`. -/
def neg (a : Vec3) : Vec3 := ⟨-a.x, -a.y, -a.z⟩

/-- Scalar multiplication, `vec3::operator*(float)`. -/
def smul (a : Vec3) (t : ℝ) : Vec3 := ⟨a.x * t, a.y * t, a.z * t⟩

/-- Dot product, `vec3::operator*(vec3)`. -/
def dot (a b : Vec3) : ℝ := a.x * b.x + a.y * b.y + a.z * b.z

/-- Euclidean norm, `vec3::norm`. -/
def norm (a : Vec3) : ℝ := Real.sqrt (a.x * a.x + a.y * a.y + a.z * a.z)

/-- Normalisation, `vec3::normalized` (scales by the reciprocal norm). -/
def normalized (a : Vec3) : Vec3 := a.smul (1 / a.norm)

end Vec3

/-- Surface material, mirroring `struct Material` with its four albedo
channels unpacked into named fields `albedo0`..`albedo3`. -/
structure Material where
  refractive_index : ℝ
  albedo0 : ℝ
  albedo1 : ℝ
  albedo2 : ℝ
  albedo3 : ℝ
  diffuse_color : Vec3
  specular_exponent : ℝ

/-- The default-constructed `Material`: refractive index 1, albedo
`{2, 0, 0, 0}`, black diffuse color, specular exponent 0. -/
def defaultMaterial : Material := ⟨1, 2, 0, 0, 0, ⟨0, 0, 0⟩, 0⟩

/-- Sphere primitive, mirroring `struct Sphere`. -/
structure Sphere where
  center : Vec3
  radius : ℝ
  material : Material

/-- Axis-aligned cube primitive, mirroring `struct Cube`. -/
structure Cube where
  center : Vec3
  size : ℝ
  material : Material

/-- Material `marble` from the source. -/
def marble : Material := ⟨1.0, 0.8, 0.2, 0.0, 0.0, ⟨0.5, 0.5, 0.5⟩, 30⟩

/-- Material `water` from the source. -/
def water : Material := ⟨1.3, 0.1, 0.4, 0.7, 0.5, ⟨0.2, 0.5, 0.8⟩, 100⟩

/-- Material `shiny_red` from the source. -/
def shiny_red : Material := ⟨1.0, 1.2, 0.3, 0.0, 0.1, ⟨0.7, 0.1, 0.1⟩, 200⟩

/-- Material `bronze` from the source. -/
def bronze : Material := ⟨1.0, 0.4, 0.3, 0.2, 0.1, ⟨0.8, 0.7, 0.5⟩, 500⟩

/-- The scene's four spheres, in the source's array order. -/
def sphereList : List Sphere :=
  [⟨⟨-2, 1, -15⟩, 1.5, marble⟩,
   ⟨⟨0, 4, -12⟩, 2.0, water⟩,
   ⟨⟨2, 0, -18⟩, 2.5, shiny_red⟩,
   ⟨⟨5, 3, -20⟩, 3.5, bronze⟩]

/-- The scene's cube. -/
def sceneCube : Cube := ⟨⟨0, -1, -10⟩, 2.0, water⟩

/-- The scene's three point lights. -/
def lightList : List Vec3 := [⟨-15, 10, 25⟩, ⟨20, 30, -30⟩, ⟨10, 10, 15⟩]

/-- Mirror reflection, function `reflect`. -/
def reflect (I N : Vec3) : Vec3 := I.sub (N.smul (2 * I.dot N))

/-- The clamped negated cosine `cosi = -max(-1, min(1, I*N))` computed
at the top of `refract`. -/
def clampCos (I N : Vec3) : ℝ := -(max (-1) (min 1 (I.dot N)))

/-- The refraction discriminant `k = 1 - eta^2 (1 - cosi^2)` of
`refract`, with `eta = eta_i / eta_t` and `cosi = clampCos I N`. -/
def snellK (I N : Vec3) (eta_t eta_i : ℝ) : ℝ :=
  1 - (eta_i / eta_t) * (eta_i / eta_t) * (1 - clampCos I N * clampCos I N)

/-- Main branch of `refract`, taken once the cosine is nonnegative:
given `cosi = -clamp(I*N, -1, 1)` it computes the Snell direction, with
the `{1,0,0}` sentinel on total internal reflection. -/
def refractCore (I N : Vec3) (eta_t eta_i cosi : ℝ) : Vec3 :=
  let eta := eta_i / eta_t
  let k := 1 - eta * eta * (1 - cosi * cosi)
  if k < 0 then ⟨1, 0, 0⟩ else (I.smul eta).add (N.smul (eta * cosi - Real.sqrt k))

/-- The function `refract`.  The C++ version calls itself once, with the
normal flipped and the indices swapped, whenever `cosi < 0`; on that
recursive call the cosine is nonnegative, so the recursion is unfolded
into a single conditional here. -/
def refract (I N : Vec3) (eta_t : ℝ) (eta_i : ℝ := 1) : Vec3 :=
  if clampCos I N < 0 then
    refractCore I N.neg eta_i eta_t (clampCos I N.neg)
  else
    refractCore I N eta_t eta_i (clampCos I N)

/-- Projection `tca = L * dir` of `ray_sphere_intersect`. -/
def sphereTca (orig dir : Vec3) (s : Sphere) : ℝ := (s.center.sub orig).dot dir

/-- Squared perpendicular distance `d2 = L*L - tca*tca` of
`ray_sphere_intersect`. -/
def sphereD2 (orig dir : Vec3) (s : Sphere) : ℝ :=
  (s.center.sub orig).dot (s.center.sub orig) - sphereTca orig dir s * sphereTca orig dir s

/-- First candidate distance `t0 = tca - thc` of `ray_sphere_intersect`,
where `thc = sqrt(radius^2 - d2)`. -/
def sphereT0 (orig dir : Vec3) (s : Sphere) : ℝ :=
  sphereTca orig dir s - Real.sqrt (s.radius * s.radius - sphereD2 orig dir s)

/-- Second candidate distance `t1 = tca + thc` of `ray_sphere_intersect`. -/
def sphereT1 (orig dir : Vec3) (s : Sphere) : ℝ :=
  sphereTca orig dir s + Real.sqrt (s.radius * s.radius - sphereD2 orig dir s)

/-- Function `ray_sphere_intersect`: geometric ray/sphere test returning
a hit flag and the hit distance. -/
def raySphereIntersect (orig dir : Vec3) (s : Sphere) : Bool × ℝ :=
  if sphereD2 orig dir s > s.radius * s.radius then (false, 0)
  else if sphereT0 orig dir s > 0.001 then (true, sphereT0 orig dir s)
  else if sphereT1 orig dir s > 0.001 then (true, sphereT1 orig dir s)
  else (false, 0)

/-- IEEE-754-style extended value: a finite real, a signed infinity, or
NaN.  Used for the slab quotients of the box intersection, whose
direction components may be zero. -/
inductive FVal where
  | fin (r : ℝ)
  | pinf
  | ninf
  | nan

/-- IEEE division of a finite numerator by a finite denominator: a zero
denominator yields a signed infinity (sign of the numerator; the real
model has no signed zero), and 0/0 yields NaN. -/
def fdiv (n d : ℝ) : FVal :=
  if d = 0 then (if 0 < n then FVal.pinf else if n < 0 then FVal.ninf else FVal.nan)
  else FVal.fin (n / d)

namespace FVal

/-- IEEE `<` on extended values: any comparison involving NaN is false. -/
def flt : FVal → FVal → Prop
  | fin a, fin b => a < b
  | fin _, pinf => True
  | ninf, fin _ => True
  | ninf, pinf => True
  | _, _ => False

/-- IEEE `==` on extended values: NaN is not equal to anything, each
infinity is equal to itself. -/
def feq : FVal → FVal → Prop
  | fin a, fin b => a = b
  | pinf, pinf => True
  | ninf, ninf => True
  | _, _ => False

instance (a b : FVal) : Decidable (flt a b) := by
  cases a <;> cases b <;> simp only [flt] <;> infer_instance

instance (a b : FVal) : Decidable (feq a b) := by
  cases a <;> cases b <;> simp only [feq] <;> infer_instance

/-- Value of a finite extended value; junk (0) on the non-finite ones. -/
def toReal : FVal → ℝ
  | fin r => r
  | _ => 0

end FVal

/-- An extended value that is negative: either `-inf` or a negative
finite value.  Slab entry parameters of a ray starting inside a slab
are of this shape. -/
def NegSide (v : FVal) : Prop := v = FVal.ninf ∨ ∃ r, v = FVal.fin r ∧ r < 0

/-- An extended value that is positive: either `+inf` or a positive
finite value. -/
def PosSide (v : FVal) : Prop := v = FVal.pinf ∨ ∃ r, v = FVal.fin r ∧ 0 < r

/-- All intermediate slab values of `ray_cube_intersect`: the raw
per-axis quotients `t{x,y,z}1/2`, the per-axis ordered pairs
`t{x,y,z}n/f` (after the conditional swap), the running interval after
merging x and y (`tmin1`, `tmax1`) and after merging z (`tminF`,
`tmaxF`).  The source computes the z quotients only after the first
disjointness check; computing them unconditionally is observably
identical since IEEE division has no side effects. -/
structure Slabs where
  tx1 : FVal
  tx2 : FVal
  txn : FVal
  txf : FVal
  ty1 : FVal
  ty2 : FVal
  tyn : FVal
  tyf : FVal
  tz1 : FVal
  tz2 : FVal
  tzn : FVal
  tzf : FVal
  tmin1 : FVal
  tmax1 : FVal
  tminF : FVal
  tmaxF : FVal

/-- The slab computation of `ray_cube_intersect`, lines 99-127. -/
def cubeSlabs (orig dir : Vec3) (c : Cube) : Slabs :=
  let tx1 := fdiv (c.center.x - c.size / 2 - orig.x) dir.x
  let tx2 := fdiv (c.center.x + c.size / 2 - orig.x) dir.x
  let txn := if FVal.flt tx2 tx1 then tx2 else tx1
  let txf := if FVal.flt tx2 tx1 then tx1 else tx2
  let ty1 := fdiv (c.center.y - c.size / 2 - orig.y) dir.y
  let ty2 := fdiv (c.center.y + c.size / 2 - orig.y) dir.y
  let tyn := if FVal.flt ty2 ty1 then ty2 else ty1
  let tyf := if FVal.flt ty2 ty1 then ty1 else ty2
  let tz1 := fdiv (c.center.z - c.size / 2 - orig.z) dir.z
  let tz2 := fdiv (c.center.z + c.size / 2 - orig.z) dir.z
  let tzn := if FVal.flt tz2 tz1 then tz2 else tz1
  let tzf := if FVal.flt tz2 tz1 then tz1 else tz2
  let tmin1 := if FVal.flt txn tyn then tyn else txn
  let tmax1 := if FVal.flt tyf txf then tyf else txf
  let tminF := if FVal.flt tmin1 tzn then tzn else tmin1
  let tmaxF := if FVal.flt tzf tmax1 then tzf else tmax1
  ⟨tx1, tx2, txn, txf, ty1, ty2, tyn, tyf, tz1, tz2, tzn, tzf, tmin1, tmax1, tminF, tmaxF⟩

/-- First disjointness check of `ray_cube_intersect`, line 107:
`(tmin > tymax) || (tymin > tmax)` on the x interval versus the y
interval. -/
def cubeDisjointXY (orig dir : Vec3) (c : Cube) : Prop :=
  let S := cubeSlabs orig dir c
  FVal.flt S.tyf S.txn ∨ FVal.flt S.txf S.tyn

/-- Second disjointness check of `ray_cube_intersect`, line 120:
`(tmin > tzmax) || (tzmin > tmax)` on the merged x/y interval versus the
z interval. -/
def cubeDisjointZ (orig dir : Vec3) (c : Cube) : Prop :=
  let S := cubeSlabs orig dir c
  FVal.flt S.tzf S.tmin1 ∨ FVal.flt S.tmax1 S.tzn

/-- Function `ray_cube_intersect`: hit flag, entry distance, and the
axis-of-entry normal.  The normal components test `tmin` against the
recomputed bound quotients with IEEE equality, exactly as lines
131-135 do. -/
def rayCubeIntersect (orig dir : Vec3) (c : Cube) : Bool × FVal × Vec3 :=
  let S := cubeSlabs orig dir c
  if FVal.flt S.tyf S.txn ∨ FVal.flt S.txf S.tyn then (false, FVal.fin 0, ⟨0, 0, 0⟩)
  else if FVal.flt S.tzf S.tmin1 ∨ FVal.flt S.tmax1 S.tzn then (false, FVal.fin 0, ⟨0, 0, 0⟩)
  else if FVal.flt (FVal.fin 0) S.tminF then
    (true, S.tminF,
      ⟨if FVal.feq S.tminF (fdiv (c.center.x - c.size / 2 - orig.x) dir.x) ∨
          FVal.feq S.tminF (fdiv (c.center.x + c.size / 2 - orig.x) dir.x) then 1 else 0,
       if FVal.feq S.tminF (fdiv (c.center.y - c.size / 2 - orig.y) dir.y) ∨
          FVal.feq S.tminF (fdiv (c.center.y + c.size / 2 - orig.y) dir.y) then 1 else 0,
       if FVal.feq S.tminF (fdiv (c.center.z - c.size / 2 - orig.z) dir.z) ∨
          FVal.feq S.tminF (fdiv (c.center.z + c.size / 2 - orig.z) dir.z) then 1 else 0⟩)
  else (false, FVal.fin 0, ⟨0, 0, 0⟩)

/-- Plane parameter `d = -(orig.y + 3) / dir.y` of the ground-plane test
in `scene_intersect`. -/
def planeDist (orig dir : Vec3) : ℝ := -(orig.y + 3) / dir.y

/-- The candidate ground-plane hit point `orig + dir * d`. -/
def planePoint (orig dir : Vec3) : Vec3 := orig.add (dir.smul (planeDist orig dir))

/-- Exact acceptance condition of the ground-plane branch of
`scene_intersect` (lines 147-150), with the initial sentinel `1e10`
substituted for `nearest_dist`. -/
def PlaneAccept (orig dir : Vec3) : Prop :=
  |dir.y| > 0.001 ∧ planeDist orig dir > 0.001 ∧ planeDist orig dir < 1e10 ∧
    |(planePoint orig dir).x| < 12 ∧ (planePoint orig dir).z < -12 ∧
    (planePoint orig dir).z > -28

/-- Truncation toward zero, the semantics of C++'s float-to-integer
conversion `int(...)` (and of the float-to-`char` cast in `main`). -/
def rtrunc (x : ℝ) : ℤ := if 0 ≤ x then ⌊x⌋ else ⌈x⌉

/-- Checkerboard shade picked by the plane branch (line 154): the C++
`int(...)` casts truncate toward zero, and `& 1` on a two's-complement
int is the nonnegative parity bit, i.e. `% 2` with nonnegative result. -/
def codeChecker (p : Vec3) : Vec3 :=
  if (rtrunc (0.5 * p.x + 1000) + rtrunc (0.5 * p.z)) % 2 = 1
  then ⟨0.4, 0.4, 0.4⟩ else ⟨0.4, 0.3, 0.2⟩

/-- Modelled from the spec's words (for comparison with `codeChecker`,
which is the code's formula): checkerboard parity keyed by the FLOOR of
half the offset coordinates, `(floor(0.5*x + 1000) + floor(0.5*z)) mod 2`. -/
def specChecker (p : Vec3) : Vec3 :=
  if (⌊0.5 * p.x + 1000⌋ + ⌊0.5 * p.z⌋) % 2 = 1
  then ⟨0.4, 0.4, 0.4⟩ else ⟨0.4, 0.3, 0.2⟩

/-- State of `scene_intersect` after the ground-plane test
(lines 143-156): `(nearest_dist, pt, N, material)`. -/
def planeStage (orig dir : Vec3) : ℝ × Vec3 × Vec3 × Material :=
  if |dir.y| > 0.001 then
    if planeDist orig dir > 0.001 ∧ planeDist orig dir < 1e10 ∧
        |(planePoint orig dir).x| < 12 ∧ (planePoint orig dir).z < -12 ∧
        (planePoint orig dir).z > -28 then
      (planeDist orig dir, planePoint orig dir, ⟨0, 1, 0⟩,
       { defaultMaterial with diffuse_color := codeChecker (planePoint orig dir) })
    else (1e10, ⟨0, 0, 0⟩, ⟨0, 0, 0⟩, defaultMaterial)
  else (1e10, ⟨0, 0, 0⟩, ⟨0, 0, 0⟩, defaultMaterial)

/-- Loop body of the sphere loop of `scene_intersect` (lines 158-165). -/
def sphereFoldStep (orig dir : Vec3) (st : ℝ × Vec3 × Vec3 × Material) (s : Sphere) :
    ℝ × Vec3 × Vec3 × Material :=
  let r := raySphereIntersect orig dir s
  if r.1 = false ∨ r.2 > st.1 then st
  else (r.2, orig.add (dir.smul r.2),
        ((orig.add (dir.smul r.2)).sub s.center).normalized, s.material)

/-- State of `scene_intersect` after the sphere loop. -/
def sphereStage (orig dir : Vec3) : ℝ × Vec3 × Vec3 × Material :=
  sphereList.foldl (sphereFoldStep orig dir) (planeStage orig dir)

/-- Internal state of `scene_intersect` after all three stages:
`(nearest_dist, pt, N, material)`.  The C++ function keeps
`nearest_dist` in a local; it is exposed here so that the nearest-hit
distance can be reasoned about directly. -/
def sceneIntersectAux (orig dir : Vec3) : ℝ × Vec3 × Vec3 × Material :=
  let st1 := sphereStage orig dir
  let rc := rayCubeIntersect orig dir sceneCube
  if rc.1 = true ∧ FVal.flt rc.2.1 (FVal.fin st1.1) then
    (rc.2.1.toReal, orig.add (dir.smul rc.2.1.toReal), rc.2.2, sceneCube.material)
  else st1

/-- Observable result of `scene_intersect`, mirroring its returned
`std::tuple<bool, vec3, vec3, Material>`. -/
structure HitRes where
  hit : Bool
  point : Vec3
  normal : Vec3
  material : Material

/-- Function `scene_intersect`: the hit flag is `nearest_dist < 1000`. -/
def sceneIntersect (orig dir : Vec3) : HitRes :=
  let a := sceneIntersectAux orig dir
  ⟨decide (a.1 < 1000), a.2.1, a.2.2.1, a.2.2.2⟩

/-- The nearest-hit distance of `scene_intersect` (its local
`nearest_dist` at line 175). -/
def sceneNearestDist (orig dir : Vec3) : ℝ := (sceneIntersectAux orig dir).1

/-- The final color combination of `cast_ray`, line 197:
`diffuse_color*dli*albedo[0] + white*sli*albedo[1] + reflect_color*albedo[2]
 + refract_color*albedo[3]`. -/
def shadeCombine (m : Material) (dli sli : ℝ) (reflectColor refractColor : Vec3) : Vec3 :=
  (((m.diffuse_color.smul dli).smul m.albedo0).add
    (((Vec3.mk 1 1 1).smul sli).smul m.albedo1)).add
    ((reflectColor.smul m.albedo2).add (refractColor.smul m.albedo3))

/-- Function `cast_ray`: recursive shading, bounded by the hard depth
ceiling `depth > 4`.  The recursion is well-founded on `5 - depth`. -/
def castRay (orig dir : Vec3) (depth : ℕ) : Vec3 :=
  let res := sceneIntersect orig dir
  if h : 4 < depth ∨ res.hit = false then ⟨0.2, 0.7, 0.8⟩
  else
    let reflectDir := (reflect dir res.normal).normalized
    let refractDir := (refract dir res.normal res.material.refractive_index).normalized
    let reflectColor := castRay res.point reflectDir (depth + 1)
    let refractColor := castRay res.point refractDir (depth + 1)
    let acc := lightList.foldl (fun acc light =>
      let lightDir := (light.sub res.point).normalized
      let sres := sceneIntersect res.point lightDir
      if sres.hit = true ∧ (sres.point.sub res.point).norm < (light.sub res.point).norm
      then acc
      else (acc.1 + max 0 (lightDir.dot res.normal),
            acc.2 + Real.rpow (max 0 (-(Vec3.dot (reflect lightDir.neg res.normal) dir)))
                      res.material.specular_exponent)) ((0 : ℝ), (0 : ℝ))
    shadeCombine res.material acc.1 acc.2 reflectColor refractColor
termination_by 5 - depth
decreasing_by
  all_goals (push_neg at h; omega)

/-- Image width of the driver. -/
def imgWidth : ℕ := 1024

/-- Image height of the driver. -/
def imgHeight : ℕ := 768

/-- The driver's framebuffer: pixel `pix` gets the color of the primary
camera ray through that pixel (main loop, lines 206-211). -/
def framebuffer (pix : ℕ) : Vec3 :=
  let dx : ℝ := ((pix % imgWidth : ℕ) : ℝ) + 0.5 - (imgWidth : ℝ) / 2
  let dy : ℝ := -(((pix / imgWidth : ℕ) : ℝ) + 0.5) + (imgHeight : ℝ) / 2
  let dz : ℝ := -(imgHeight : ℝ) / (2 * Real.tan (1.05 / 2))
  castRay ⟨0, 0, 0⟩ (Vec3.mk dx dy dz).normalized 0

/-- The driver's tone-mapping scale for one pixel, line 217:
`max(1, max(r, max(g, b)))`. -/
def colorScale (c : Vec3) : ℝ := max 1 (max c.x (max c.y c.z))

/-- One output channel byte, line 219: the C++ `(char)` cast of
`255*channel/max` truncates toward zero. -/
def ppmByte (c : Vec3) (channel : ℝ) : ℤ := rtrunc (255 * channel / colorScale c)

/-- The three output bytes of one pixel, R then G then B. -/
def pixelBytes (c : Vec3) : List ℤ := [ppmByte c c.x, ppmByte c c.y, ppmByte c c.z]

/-- The PPM header written by `main`, line 215. -/
def ppmHeader : String :=
  "P6\n" ++ toString imgWidth ++ " " ++ toString imgHeight ++ "\n255\n"

/-- The raw pixel payload of the PPM file: the framebuffer's pixels in
index order (row-major, top-to-bottom), three bytes each. -/
def ppmPayload : List ℤ :=
  (List.range (imgWidth * imgHeight)).flatMap (fun pix => pixelBytes (framebuffer pix))

/-- Sphere candidate distances for the declarative nearest-hit
characterisation: the reported distance of every sphere whose
intersection test hits. -/
def sphereCandidates (orig dir : Vec3) : List ℝ :=
  sphereList.filterMap (fun s =>
    let r := raySphereIntersect orig dir s
    if r.1 = true then some r.2 else none)

instance (orig dir : Vec3) : Decidable (PlaneAccept orig dir) := by
  unfold PlaneAccept; infer_instance

/-- Ground-plane candidate distance (at most one). -/
def planeCandidates (orig dir : Vec3) : List ℝ :=
  if PlaneAccept orig dir then [planeDist orig dir] else []

/-- Cube candidate distance (at most one; only a finite reported
distance can compete). -/
def cubeCandidates (orig dir : Vec3) : List ℝ :=
  match rayCubeIntersect orig dir sceneCube with
  | (true, FVal.fin r, _) => [r]
  | _ => []

/-- Modelled from the spec's words: the globally nearest accepted
distance is the minimum of all candidate distances, starting from the
sentinel `1e10`. -/
def specNearest (orig dir : Vec3) : ℝ :=
  (planeCandidates orig dir ++ sphereCandidates orig dir ++ cubeCandidates orig dir).foldr
    min 1e10

/-- Hypothesis packaging "the ground plane is the nearest hit": the
plane branch accepts, every sphere hit is strictly farther, and the cube
does not override. -/
def PlaneNearest (orig dir : Vec3) : Prop :=
  PlaneAccept orig dir ∧
  (∀ s ∈ sphereList, (raySphereIntersect orig dir s).1 = true →
      planeDist orig dir < (raySphereIntersect orig dir s).2) ∧
  ¬((rayCubeIntersect orig dir sceneCube).1 = true ∧
      FVal.flt (rayCubeIntersect orig dir sceneCube).2.1 (FVal.fin (planeDist orig dir)))

/-! ## Helper lemmas -/

theorem clamp_neg_arg (a : ℝ) : max (-1) (min 1 (-a)) = -(max (-1) (min 1 a)) := by
  simp only [min_def, max_def]
  split_ifs <;> linarith

theorem dot_neg_right (a b : Vec3) : a.dot b.neg = -(a.dot b) := by
  simp only [Vec3.dot, Vec3.neg]; ring

theorem clampCos_neg (I N : Vec3) : clampCos I N.neg = -(clampCos I N) := by
  simp only [clampCos, dot_neg_right, clamp_neg_arg]

theorem dot_self_nonneg (v : Vec3) : 0 ≤ v.dot v := by
  simp only [Vec3.dot]
  nlinarith [mul_self_nonneg v.x, mul_self_nonneg v.y, mul_self_nonneg v.z]

theorem norm_eq_sqrt_dot (v : Vec3) : v.norm = Real.sqrt (v.dot v) := rfl

/-- C1: `cast_ray` is a total function of its three arguments — it is
defined by recursion on the strictly decreasing measure `5 - depth`, so
starting at depth 0 only depths 0..4 can perform shading work — and
whenever `depth > 4` or the scene intersector reports no hit it returns
exactly the background color `{0.2, 0.7, 0.8}` without recursing. -/
theorem castRay_depth_bound (orig dir : Vec3) (depth : ℕ)
    (h : 4 < depth ∨ (sceneIntersect orig dir).hit = false) :
    castRay orig dir depth = ⟨0.2, 0.7, 0.8⟩ := by
  rw [castRay]
  exact dif_pos h

/-- Witness for C1 at depth 5. -/
theorem castRay_depth_bound_witness :
    castRay ⟨0, 0, 0⟩ ⟨0, 0, 0⟩ 5 = ⟨0.2, 0.7, 0.8⟩ :=
  castRay_depth_bound ⟨0, 0, 0⟩ ⟨0, 0, 0⟩ 5 (Or.inl (by norm_num))

/-- C5: `refract` flips the normal and swaps the indices when
`cosi < 0`, and otherwise returns the `{1,0,0}` sentinel when the
discriminant `k` is negative and the Snell direction
`I*eta + N*(eta*cosi - sqrt k)` when `k >= 0`. -/
theorem refract_spec (I N : Vec3) (eta_t eta_i : ℝ) :
    (clampCos I N < 0 → refract I N eta_t eta_i = refract I N.neg eta_i eta_t) ∧
    (0 ≤ clampCos I N →
      (snellK I N eta_t eta_i < 0 → refract I N eta_t eta_i = ⟨1, 0, 0⟩) ∧
      (0 ≤ snellK I N eta_t eta_i →
        refract I N eta_t eta_i =
          (I.smul (eta_i / eta_t)).add
            (N.smul ((eta_i / eta_t) * clampCos I N - Real.sqrt (snellK I N eta_t eta_i))))) := by
  constructor
  · intro h
    rw [refract, refract, if_pos h, if_neg]
    rw [clampCos_neg]
    linarith
  · intro h
    have hne : ¬ clampCos I N < 0 := not_lt.mpr h
    constructor
    · intro hk
      rw [snellK] at hk
      rw [refract, if_neg hne, refractCore, if_pos hk]
    · intro hk
      have hk' := not_lt.mpr hk
      rw [snellK] at hk'
      rw [refract, if_neg hne, refractCore, if_neg hk', snellK]

/-- Witness for C5: a back-side incidence for the flip branch, and a
head-on refraction into a denser medium for the Snell branch. -/
theorem refract_spec_witness :
    refract ⟨0, 1, 0⟩ ⟨0, 1, 0⟩ 1.3 1 = refract ⟨0, 1, 0⟩ (Vec3.neg ⟨0, 1, 0⟩) 1 1.3 ∧
    refract ⟨0, -1, 0⟩ ⟨0, 1, 0⟩ 2 1 =
      ((Vec3.mk 0 (-1) 0).smul (1 / 2)).add
        ((Vec3.mk 0 1 0).smul ((1 / 2) * clampCos ⟨0, -1, 0⟩ ⟨0, 1, 0⟩ -
          Real.sqrt (snellK ⟨0, -1, 0⟩ ⟨0, 1, 0⟩ 2 1))) := by
  constructor
  · exact (refract_spec ⟨0, 1, 0⟩ ⟨0, 1, 0⟩ 1.3 1).1
      (by norm_num [clampCos, Vec3.dot])
  · have h2 := (refract_spec ⟨0, -1, 0⟩ ⟨0, 1, 0⟩ 2 1).2
      (by norm_num [clampCos, Vec3.dot])
    exact h2.2 (by norm_num [snellK, clampCos, Vec3.dot])

/-- C3: `ray_sphere_intersect` misses when `d2 > radius^2`, otherwise
prefers `t0 = tca - thc` when it clears the 0.001 epsilon, falls back to
`t1 = tca + thc`, and misses when neither clears it; and a ray aimed at
the center from outside returns distance `|C-O| - radius`. -/
theorem raySphereIntersect_spec (orig dir : Vec3) (s : Sphere) :
    (sphereD2 orig dir s > s.radius * s.radius →
        raySphereIntersect orig dir s = (false, 0)) ∧
    (¬(sphereD2 orig dir s > s.radius * s.radius) → sphereT0 orig dir s > 0.001 →
        raySphereIntersect orig dir s = (true, sphereT0 orig dir s)) ∧
    (¬(sphereD2 orig dir s > s.radius * s.radius) → ¬(sphereT0 orig dir s > 0.001) →
        sphereT1 orig dir s > 0.001 →
        raySphereIntersect orig dir s = (true, sphereT1 orig dir s)) ∧
    (¬(sphereD2 orig dir s > s.radius * s.radius) → ¬(sphereT0 orig dir s > 0.001) →
        ¬(sphereT1 orig dir s > 0.001) → raySphereIntersect orig dir s = (false, 0)) ∧
    (0 ≤ s.radius → (s.center.sub orig).norm > s.radius + 0.001 →
        raySphereIntersect orig ((s.center.sub orig).normalized) s
          = (true, (s.center.sub orig).norm - s.radius)) := by
  refine ⟨?_, ?_, ?_, ?_, ?_⟩
  · intro h; rw [raySphereIntersect, if_pos h]
  · intro h h0; rw [raySphereIntersect, if_neg h, if_pos h0]
  · intro h h0 h1; rw [raySphereIntersect, if_neg h, if_neg h0, if_pos h1]
  · intro h h0 h1; rw [raySphereIntersect, if_neg h, if_neg h0, if_neg h1]
  · intro hr hout
    have hv0 : 0 ≤ (s.center.sub orig).dot (s.center.sub orig) :=
      dot_self_nonneg _
    have hn0 : 0 < (s.center.sub orig).norm := by linarith
    have hvn : (s.center.sub orig).dot (s.center.sub orig) =
        (s.center.sub orig).norm * (s.center.sub orig).norm := by
      rw [norm_eq_sqrt_dot, Real.mul_self_sqrt hv0]
    have htca : sphereTca orig ((s.center.sub orig).normalized) s =
        (s.center.sub orig).norm := by
      rw [sphereTca]
      simp only [Vec3.normalized, Vec3.dot, Vec3.smul]
      have : (s.center.sub orig).x * ((s.center.sub orig).x * (1 / (s.center.sub orig).norm)) +
          (s.center.sub orig).y * ((s.center.sub orig).y * (1 / (s.center.sub orig).norm)) +
          (s.center.sub orig).z * ((s.center.sub orig).z * (1 / (s.center.sub orig).norm)) =
          ((s.center.sub orig).dot (s.center.sub orig)) * (1 / (s.center.sub orig).norm) := by
        rw [Vec3.dot]; ring
      rw [this, hvn]
      field_simp
    have hd2 : sphereD2 orig ((s.center.sub orig).normalized) s = 0 := by
      rw [sphereD2, htca, hvn]; ring
    have ht0 : sphereT0 orig ((s.center.sub orig).normalized) s =
        (s.center.sub orig).norm - s.radius := by
      rw [sphereT0, htca, hd2, sub_zero, Real.sqrt_mul_self hr]
    rw [raySphereIntersect, if_neg, if_pos]
    · rw [ht0]
    · rw [ht0]; linarith
    · rw [hd2]
      intro hcon
      nlinarith

/-- Witness for C3: the unit sphere at `(0,0,-5)` seen from the origin:
a head-on ray hits at distance 4, and a perpendicular ray misses. -/
theorem raySphereIntersect_spec_witness :
    raySphereIntersect ⟨0, 0, 0⟩
        (((Sphere.mk ⟨0, 0, -5⟩ 1 defaultMaterial).center.sub ⟨0, 0, 0⟩).normalized)
        ⟨⟨0, 0, -5⟩, 1, defaultMaterial⟩ =
      (true, ((Sphere.mk ⟨0, 0, -5⟩ 1 defaultMaterial).center.sub ⟨0, 0, 0⟩).norm - 1) ∧
    raySphereIntersect ⟨0, 0, 0⟩ ⟨1, 0, 0⟩ ⟨⟨0, 0, -5⟩, 1, defaultMaterial⟩ = (false, 0) := by
  constructor
  · refine (raySphereIntersect_spec ⟨0, 0, 0⟩ ⟨0, 0, 0⟩ ⟨⟨0, 0, -5⟩, 1, defaultMaterial⟩).2.2.2.2
      (by norm_num) ?_
    have h25 : Real.sqrt 25 = 5 := by
      rw [show (25 : ℝ) = 5 * 5 by norm_num, Real.sqrt_mul_self (by norm_num : (0:ℝ) ≤ 5)]
    simp only [Vec3.sub, Vec3.norm]
    norm_num [h25]
  · exact (raySphereIntersect_spec ⟨0, 0, 0⟩ ⟨1, 0, 0⟩ ⟨⟨0, 0, -5⟩, 1, defaultMaterial⟩).1
      (by norm_num [sphereD2, sphereTca, Vec3.dot, Vec3.sub])

theorem length_flatMap_three (f : ℕ → List ℤ) (h : ∀ n, (f n).length = 3) :
    ∀ l : List ℕ, (l.flatMap f).length = l.length * 3 := by
  intro l
  induction l with
  | nil => simp
  | cons a t ih => simp [List.flatMap_cons, h, ih]; ring

/-- C9 (amended): the driver writes the header `"P6\n1024 768\n255\n"`,
then for each framebuffer pixel in index order (row-major,
top-to-bottom) three bytes R,G,B, each `255*channel/scale` with
`scale = max(1, max(r, max(g, b)))` TRUNCATED TOWARD ZERO (the C++
`(char)` cast), not rounded; for nonnegative channels every byte lies
in [0, 255]. -/
theorem ppm_output_amended :
    ppmHeader = "P6\n1024 768\n255\n" ∧
    (∀ c : Vec3, pixelBytes c =
      [rtrunc (255 * c.x / colorScale c), rtrunc (255 * c.y / colorScale c),
       rtrunc (255 * c.z / colorScale c)]) ∧
    (∀ c : Vec3, 0 ≤ c.x → 0 ≤ c.y → 0 ≤ c.z →
      ∀ b ∈ pixelBytes c, 0 ≤ b ∧ b ≤ 255) ∧
    ppmPayload.length = imgWidth * imgHeight * 3 := by
  have key : ∀ (c : Vec3) (ch : ℝ), 0 ≤ ch → ch ≤ colorScale c →
      0 ≤ ppmByte c ch ∧ ppmByte c ch ≤ 255 := by
    intro c ch hch hle
    have hs0 : (0:ℝ) < colorScale c := lt_of_lt_of_le one_pos (le_max_left _ _)
    have hv0 : 0 ≤ 255 * ch / colorScale c :=
      div_nonneg (by nlinarith) hs0.le
    have hv255 : 255 * ch / colorScale c ≤ 255 := by
      rw [div_le_iff₀ hs0]; nlinarith
    rw [ppmByte, rtrunc, if_pos hv0]
    refine ⟨Int.floor_nonneg.mpr hv0, ?_⟩
    have h1 : (⌊255 * ch / colorScale c⌋ : ℝ) ≤ 255 :=
      le_trans (Int.floor_le _) hv255
    exact_mod_cast h1
  refine ⟨rfl, fun c => rfl, ?_, ?_⟩
  · intro c hx hy hz b hb
    have hxle : c.x ≤ colorScale c :=
      le_trans (le_max_left _ _) (le_max_right _ _)
    have hyle : c.y ≤ colorScale c :=
      le_trans (le_trans (le_max_left _ _) (le_max_right _ _)) (le_max_right _ _)
    have hzle : c.z ≤ colorScale c :=
      le_trans (le_trans (le_max_right _ _) (le_max_right _ _)) (le_max_right _ _)
    simp only [pixelBytes, List.mem_cons, List.not_mem_nil, or_false] at hb
    rcases hb with rfl | rfl | rfl
    · exact key c c.x hx hxle
    · exact key c c.y hy hyle
    · exact key c c.z hz hzle
  · rw [ppmPayload,
      length_flatMap_three (fun pix => pixelBytes (framebuffer pix)) (fun n => rfl),
      List.length_range]

/-- Counterexample for C9: for the half-intensity red pixel the written
byte is 127 (truncation of 127.5), while `round(255*channel/scale)`
would be 128. -/
theorem ppm_round_cex :
    pixelBytes ⟨1 / 2, 0, 0⟩ = [127, 0, 0] ∧
    round ((255:ℝ) * (1 / 2) / colorScale ⟨1 / 2, 0, 0⟩) = 128 ∧
    (127 : ℤ) ≠ 128 := by
  have hscale : colorScale ⟨1 / 2, 0, 0⟩ = 1 := by
    rw [colorScale]
    simp only [max_self]
    rw [max_eq_left (by norm_num : (0:ℝ) ≤ 1 / 2),
      max_eq_left (by norm_num : (1 / 2 : ℝ) ≤ 1)]
  have hfloor : ⌊(127.5 : ℝ)⌋ = 127 := by
    rw [Int.floor_eq_iff] <;> norm_num
  have h1 : rtrunc 127.5 = 127 := by
    rw [rtrunc, if_pos (by norm_num)]; exact hfloor
  have h2 : rtrunc 0 = 0 := by
    rw [rtrunc, if_pos le_rfl]; exact Int.floor_zero
  refine ⟨?_, ?_, by norm_num⟩
  · dsimp only [pixelBytes, ppmByte]
    rw [hscale, show (255 : ℝ) * (1 / 2) / 1 = 127.5 by norm_num,
      show (255 : ℝ) * 0 / 1 = 0 by norm_num, h1, h2]
  · rw [hscale, round_eq, show (255 : ℝ) * (1 / 2) / 1 + 1 / 2 = 128 by norm_num]
    rw [Int.floor_eq_iff] <;> norm_num

theorem flt_asymm {a b : FVal} (h : FVal.flt a b) : ¬ FVal.flt b a := by
  cases a <;> cases b <;> simp_all [FVal.flt] <;> linarith

theorem flt_zero_trans {a b : FVal} (x : ℝ) (h1 : FVal.flt a (FVal.fin x))
    (h2 : FVal.flt (FVal.fin x) b) : FVal.flt a b := by
  cases a <;> cases b <;> simp_all [FVal.flt] <;> linarith

theorem swap_not_flt (a b : FVal) :
    ¬ FVal.flt (if FVal.flt b a then a else b) (if FVal.flt b a then b else a) := by
  by_cases h : FVal.flt b a
  · rw [if_pos h, if_pos h]; exact flt_asymm h
  · rw [if_neg h, if_neg h]; exact h

theorem negSide_merge {a b : FVal} (ha : NegSide a) (hb : NegSide b) :
    NegSide (if FVal.flt a b then b else a) := by
  by_cases h : FVal.flt a b
  · rw [if_pos h]; exact hb
  · rw [if_neg h]; exact ha

theorem negSide_not_flt_zero {v : FVal} (h : NegSide v) : ¬ FVal.flt (FVal.fin 0) v := by
  rcases h with rfl | ⟨r, rfl, hr⟩
  · simp [FVal.flt]
  · simp [FVal.flt]; linarith

theorem not_flt_pos_neg {a b : FVal} (ha : PosSide a) (hb : NegSide b) :
    ¬ FVal.flt a b := by
  rcases ha with rfl | ⟨r, rfl, hr⟩ <;> rcases hb with rfl | ⟨q, rfl, hq⟩ <;>
    simp [FVal.flt] <;> linarith

theorem axis_inside_neg_pos (lo hi o dcomp : ℝ) (h1 : lo - o < 0) (h2 : 0 < hi - o) :
    NegSide (if FVal.flt (fdiv (hi - o) dcomp) (fdiv (lo - o) dcomp)
             then fdiv (hi - o) dcomp else fdiv (lo - o) dcomp) ∧
    PosSide (if FVal.flt (fdiv (hi - o) dcomp) (fdiv (lo - o) dcomp)
             then fdiv (lo - o) dcomp else fdiv (hi - o) dcomp) := by
  rcases lt_trichotomy dcomp 0 with hd | hd | hd
  · have hlo : 0 < (lo - o) / dcomp := div_pos_of_neg_of_neg h1 hd
    have hhi : (hi - o) / dcomp < 0 := div_neg_of_pos_of_neg h2 hd
    have elo : fdiv (lo - o) dcomp = FVal.fin ((lo - o) / dcomp) := by
      rw [fdiv, if_neg (ne_of_lt hd)]
    have ehi : fdiv (hi - o) dcomp = FVal.fin ((hi - o) / dcomp) := by
      rw [fdiv, if_neg (ne_of_lt hd)]
    rw [elo, ehi]
    have hcond : FVal.flt (FVal.fin ((hi - o) / dcomp)) (FVal.fin ((lo - o) / dcomp)) := by
      simp only [FVal.flt]; linarith
    rw [if_pos hcond, if_pos hcond]
    exact ⟨Or.inr ⟨_, rfl, hhi⟩, Or.inr ⟨_, rfl, hlo⟩⟩
  · subst hd
    have elo : fdiv (lo - o) 0 = FVal.ninf := by
      rw [fdiv, if_pos rfl, if_neg (by linarith), if_pos h1]
    have ehi : fdiv (hi - o) 0 = FVal.pinf := by
      rw [fdiv, if_pos rfl, if_pos h2]
    rw [elo, ehi]
    have hcond : ¬ FVal.flt FVal.pinf FVal.ninf := by simp [FVal.flt]
    rw [if_neg hcond, if_neg hcond]
    exact ⟨Or.inl rfl, Or.inl rfl⟩
  · have hlo : (lo - o) / dcomp < 0 := div_neg_of_neg_of_pos h1 hd
    have hhi : 0 < (hi - o) / dcomp := div_pos h2 hd
    have elo : fdiv (lo - o) dcomp = FVal.fin ((lo - o) / dcomp) := by
      rw [fdiv, if_neg (ne_of_gt hd)]
    have ehi : fdiv (hi - o) dcomp = FVal.fin ((hi - o) / dcomp) := by
      rw [fdiv, if_neg (ne_of_gt hd)]
    rw [elo, ehi]
    have hcond : ¬ FVal.flt (FVal.fin ((hi - o) / dcomp)) (FVal.fin ((lo - o) / dcomp)) := by
      simp only [FVal.flt, not_lt]; linarith
    rw [if_neg hcond, if_neg hcond]
    exact ⟨Or.inr ⟨_, rfl, hlo⟩, Or.inr ⟨_, rfl, hhi⟩⟩

theorem slab_behind {xn xf yn yf zn zf m1 M1 mF MF : FVal}
    (hxs : ¬ FVal.flt xf xn) (hys : ¬ FVal.flt yf yn) (hzs : ¬ FVal.flt zf zn)
    (hm1 : m1 = if FVal.flt xn yn then yn else xn)
    (hM1 : M1 = if FVal.flt yf xf then yf else xf)
    (hmF : mF = if FVal.flt m1 zn then zn else m1)
    (hMF : MF = if FVal.flt zf M1 then zf else M1)
    (h1 : ¬ FVal.flt yf xn) (h2 : ¬ FVal.flt xf yn)
    (h3 : ¬ FVal.flt zf m1) (h4 : ¬ FVal.flt M1 zn)
    (hpos : FVal.flt (FVal.fin 0) mF) (hneg : FVal.flt MF (FVal.fin 0)) : False := by
  by_cases hA : FVal.flt m1 zn
  · rw [hmF, if_pos hA] at hpos
    by_cases hB : FVal.flt zf M1
    · rw [hMF, if_pos hB] at hneg
      exact hzs (flt_zero_trans 0 hneg hpos)
    · rw [hMF, if_neg hB] at hneg
      exact h4 (flt_zero_trans 0 hneg hpos)
  · rw [hmF, if_neg hA] at hpos
    by_cases hB : FVal.flt zf M1
    · rw [hMF, if_pos hB] at hneg
      exact h3 (flt_zero_trans 0 hneg hpos)
    · rw [hMF, if_neg hB] at hneg
      have hMm : FVal.flt M1 m1 := flt_zero_trans 0 hneg hpos
      by_cases hC : FVal.flt xn yn
      · rw [hm1, if_pos hC] at hMm
        by_cases hD : FVal.flt yf xf
        · rw [hM1, if_pos hD] at hMm; exact hys hMm
        · rw [hM1, if_neg hD] at hMm; exact h2 hMm
      · rw [hm1, if_neg hC] at hMm
        by_cases hD : FVal.flt yf xf
        · rw [hM1, if_pos hD] at hMm; exact h1 hMm
        · rw [hM1, if_neg hD] at hMm; exact hxs hMm

theorem rayCube_hit_iff (orig dir : Vec3) (c : Cube) :
    (rayCubeIntersect orig dir c).1 = true ↔
      ¬ cubeDisjointXY orig dir c ∧ ¬ cubeDisjointZ orig dir c ∧
        FVal.flt (FVal.fin 0) (cubeSlabs orig dir c).tminF := by
  rw [rayCubeIntersect, cubeDisjointXY, cubeDisjointZ]
  split_ifs with hd1 hd2 hp <;> simp_all

theorem rayCube_dist_eq (orig dir : Vec3) (c : Cube)
    (h : (rayCubeIntersect orig dir c).1 = true) :
    (rayCubeIntersect orig dir c).2.1 = (cubeSlabs orig dir c).tminF := by
  rcases (rayCube_hit_iff orig dir c).mp h with ⟨hd1, hd2, hp⟩
  rw [cubeDisjointXY] at hd1
  rw [cubeDisjointZ] at hd2
  rw [rayCubeIntersect, if_neg hd1, if_neg hd2, if_pos hp]

/-- C4: the box test reports a hit exactly when no pairwise slab
comparison shows disjointness and the combined entry parameter `tmin`
is positive (with the IEEE extended-value semantics for zero direction
components), the reported distance is that `tmin`; a ray starting
strictly inside the box is never a hit, and neither is one whose
combined exit parameter is negative (box behind the origin). -/
theorem rayCubeIntersect_spec (orig dir : Vec3) (c : Cube) :
    ((rayCubeIntersect orig dir c).1 = true ↔
      ¬ cubeDisjointXY orig dir c ∧ ¬ cubeDisjointZ orig dir c ∧
        FVal.flt (FVal.fin 0) (cubeSlabs orig dir c).tminF) ∧
    ((rayCubeIntersect orig dir c).1 = true →
      (rayCubeIntersect orig dir c).2.1 = (cubeSlabs orig dir c).tminF) ∧
    (|orig.x - c.center.x| < c.size / 2 → |orig.y - c.center.y| < c.size / 2 →
      |orig.z - c.center.z| < c.size / 2 → (rayCubeIntersect orig dir c).1 = false) ∧
    (FVal.flt (cubeSlabs orig dir c).tmaxF (FVal.fin 0) →
      (rayCubeIntersect orig dir c).1 = false) := by
  have hIff := rayCube_hit_iff orig dir c
  refine ⟨hIff, rayCube_dist_eq orig dir c, ?_, ?_⟩
  · intro hx hy hz
    rw [abs_lt] at hx hy hz
    have hX := axis_inside_neg_pos (c.center.x - c.size / 2) (c.center.x + c.size / 2)
      orig.x dir.x (by linarith [hx.1, hx.2]) (by linarith [hx.1, hx.2])
    have hY := axis_inside_neg_pos (c.center.y - c.size / 2) (c.center.y + c.size / 2)
      orig.y dir.y (by linarith [hy.1, hy.2]) (by linarith [hy.1, hy.2])
    have hZ := axis_inside_neg_pos (c.center.z - c.size / 2) (c.center.z + c.size / 2)
      orig.z dir.z (by linarith [hz.1, hz.2]) (by linarith [hz.1, hz.2])
    have hmin1 : NegSide (cubeSlabs orig dir c).tmin1 := negSide_merge hX.1 hY.1
    have hminF : NegSide (cubeSlabs orig dir c).tminF := negSide_merge hmin1 hZ.1
    rw [rayCubeIntersect]
    split_ifs with hd1 hd2 hp
    · rfl
    · rfl
    · exact absurd hp (negSide_not_flt_zero hminF)
    · rfl
  · intro hb
    by_contra hcon
    rw [Bool.not_eq_false] at hcon
    rcases hIff.mp hcon with ⟨hd1, hd2, hp⟩
    rw [cubeDisjointXY, not_or] at hd1
    rw [cubeDisjointZ, not_or] at hd2
    exact slab_behind (swap_not_flt _ _) (swap_not_flt _ _) (swap_not_flt _ _)
      rfl rfl rfl rfl hd1.1 hd1.2 hd2.1 hd2.2 hp hb

/-- Witness for C4: from the cube's center `(0,-1,-10)` (strictly
inside) a straight ray reports no hit. -/
theorem rayCubeIntersect_spec_witness :
    (rayCubeIntersect ⟨0, -1, -10⟩ ⟨0, 0, -1⟩ sceneCube).1 = false :=
  (rayCubeIntersect_spec ⟨0, -1, -10⟩ ⟨0, 0, -1⟩ sceneCube).2.2.1
    (by norm_num [sceneCube]) (by norm_num [sceneCube]) (by norm_num [sceneCube])

theorem foldr_min_min (l : List ℝ) (b x : ℝ) :
    l.foldr min (min b x) = min x (l.foldr min b) := by
  induction l with
  | nil => exact min_comm b x
  | cons a t ih =>
    rw [List.foldr_cons, List.foldr_cons, ih, min_left_comm]

theorem foldr_min_swap (l₁ l₂ : List ℝ) (b : ℝ) :
    l₁.foldr min (l₂.foldr min b) = l₂.foldr min (l₁.foldr min b) := by
  induction l₁ with
  | nil => rfl
  | cons a t ih =>
    rw [List.foldr_cons, List.foldr_cons, ih,
      show min a (t.foldr min b) = min (t.foldr min b) a from min_comm _ _,
      foldr_min_min]

theorem sphereFoldStep_nearest (o d : Vec3) (st : ℝ × Vec3 × Vec3 × Material) (s : Sphere) :
    (sphereFoldStep o d st s).1 =
      if (raySphereIntersect o d s).1 = true
      then min st.1 (raySphereIntersect o d s).2 else st.1 := by
  rw [sphereFoldStep]
  rcases hr : raySphereIntersect o d s with ⟨hit, dd⟩
  cases hit
  · simp
  · simp only [Bool.true_eq_false, false_or, if_true]
    by_cases hgt : dd > st.1
    · rw [if_pos hgt]
      exact (min_eq_left hgt.le).symm
    · rw [if_neg hgt]
      exact (min_eq_right (le_of_not_lt hgt)).symm

theorem sphereFold_nearest (o d : Vec3) :
    ∀ (l : List Sphere) (st : ℝ × Vec3 × Vec3 × Material),
      (l.foldl (sphereFoldStep o d) st).1 =
        (l.filterMap fun s =>
          let r := raySphereIntersect o d s
          if r.1 = true then some r.2 else none).foldr min st.1 := by
  intro l
  induction l with
  | nil => intro st; rfl
  | cons a t ih =>
    intro st
    rw [List.foldl_cons, ih, List.filterMap_cons]
    by_cases hh : (raySphereIntersect o d a).1 = true
    · rw [if_pos hh, List.foldr_cons, sphereFoldStep_nearest, if_pos hh, foldr_min_min]
    · rw [if_neg hh, sphereFoldStep_nearest, if_neg hh]

theorem planeStage_nearest (o d : Vec3) :
    (planeStage o d).1 = (planeCandidates o d).foldr min 1e10 := by
  rw [planeCandidates]
  by_cases hP : PlaneAccept o d
  · rw [if_pos hP, planeStage, if_pos hP.1, if_pos hP.2,
      List.foldr_cons, List.foldr_nil]
    exact (min_eq_left hP.2.2.1.le).symm
  · rw [if_neg hP, planeStage]
    by_cases hy : |d.y| > 0.001
    · rw [if_pos hy, if_neg (fun hc => hP ⟨hy, hc⟩)]
      rfl
    · rw [if_neg hy]
      rfl

theorem cubeHit_shape (o d : Vec3) (c : Cube) (h : (rayCubeIntersect o d c).1 = true) :
    (∃ r, (rayCubeIntersect o d c).2.1 = FVal.fin r ∧ 0 < r) ∨
      (rayCubeIntersect o d c).2.1 = FVal.pinf := by
  have hp : FVal.flt (FVal.fin 0) (cubeSlabs o d c).tminF :=
    ((rayCube_hit_iff o d c).mp h).2.2
  rw [rayCube_dist_eq o d c h]
  rcases hm : (cubeSlabs o d c).tminF with r | _ | _ | _ <;> rw [hm] at hp
  · exact Or.inl ⟨r, rfl, by simpa [FVal.flt] using hp⟩
  · exact Or.inr rfl
  · exact absurd hp (by simp [FVal.flt])
  · exact absurd hp (by simp [FVal.flt])

theorem cubeMerge_eq (o d : Vec3) (x : ℝ) :
    (if (rayCubeIntersect o d sceneCube).1 = true ∧
        FVal.flt (rayCubeIntersect o d sceneCube).2.1 (FVal.fin x)
     then (rayCubeIntersect o d sceneCube).2.1.toReal else x) =
      (cubeCandidates o d).foldr min x := by
  rw [cubeCandidates]
  by_cases hh : (rayCubeIntersect o d sceneCube).1 = true
  · rcases cubeHit_shape o d sceneCube hh with ⟨r, hr, hrpos⟩ | hr
    · rcases hrc : rayCubeIntersect o d sceneCube with ⟨hit, dist, nrm⟩
      rw [hrc] at hh hr
      subst hh
      simp only at hr
      subst hr
      simp only [true_and, FVal.toReal]
      by_cases hlt : FVal.flt (FVal.fin r) (FVal.fin x)
      · rw [if_pos hlt, List.foldr_cons, List.foldr_nil]
        simp only [FVal.flt] at hlt
        exact (min_eq_left hlt.le).symm
      · rw [if_neg hlt, List.foldr_cons, List.foldr_nil]
        simp only [FVal.flt, not_lt] at hlt
        exact (min_eq_right hlt).symm
    · rcases hrc : rayCubeIntersect o d sceneCube with ⟨hit, dist, nrm⟩
      rw [hrc] at hh hr
      subst hh
      simp only at hr
      subst hr
      rw [if_neg (by simp [FVal.flt])]
      rfl
  · rcases hrc : rayCubeIntersect o d sceneCube with ⟨hit, dist, nrm⟩
    rw [hrc] at hh
    rw [if_neg (by simp_all)]
    cases hit
    · cases dist <;> rfl
    · exact absurd rfl hh

theorem prod_fst_ite {c : Prop} [Decidable c] (a b : ℝ × Vec3 × Vec3 × Material) :
    (if c then a else b).1 = if c then a.1 else b.1 := by
  split_ifs <;> rfl

theorem sceneNearest_eq (o d : Vec3) : sceneNearestDist o d = specNearest o d := by
  have himpl : sceneNearestDist o d =
      (cubeCandidates o d).foldr min ((sphereStage o d).1) := by
    rw [sceneNearestDist, sceneIntersectAux]
    rw [prod_fst_ite]
    exact cubeMerge_eq o d (sphereStage o d).1
  rw [himpl, sphereStage, sphereFold_nearest o d sphereList (planeStage o d),
    planeStage_nearest]
  rw [specNearest, List.foldr_append, List.foldr_append]
  rw [show (sphereCandidates o d) = sphereList.filterMap (fun s =>
    let r := raySphereIntersect o d s
    if r.1 = true then some r.2 else none) from rfl]
  rw [foldr_min_swap (sphereList.filterMap _) (planeCandidates o d) 1e10]
  rw [foldr_min_swap (cubeCandidates o d) (planeCandidates o d) _]
  rw [foldr_min_swap (cubeCandidates o d) (sphereList.filterMap _) 1e10]

/-- C2: the nearest-hit distance kept by `scene_intersect` — plane test
first (with its guard and bounds), then every sphere, then the box —
equals the minimum of all accepted candidate distances starting from
the sentinel `1e10`, and the returned hit flag is true exactly when
that minimum is below 1000. -/
theorem sceneIntersect_nearest (orig dir : Vec3) :
    sceneNearestDist orig dir = specNearest orig dir ∧
    ((sceneIntersect orig dir).hit = true ↔ specNearest orig dir < 1000) := by
  refine ⟨sceneNearest_eq orig dir, ?_⟩
  rw [sceneIntersect]
  dsimp only
  rw [decide_eq_true_eq]
  rw [show (sceneIntersectAux orig dir).1 = sceneNearestDist orig dir from rfl,
    sceneNearest_eq]

/-! ## Concrete scene evaluations -/

theorem sqrt20_lt : Real.sqrt 20 < 5 := by
  rw [Real.sqrt_lt' (show (0:ℝ) < 5 by norm_num)]
  norm_num

theorem evalA_s1 : raySphereIntersect ⟨-8, 5, -13⟩ ⟨0, -1, 0⟩ ⟨⟨-2, 1, -15⟩, 1.5, marble⟩ =
    (false, 0) := by
  norm_num [raySphereIntersect, sphereD2, sphereTca, Vec3.dot, Vec3.sub]

theorem evalA_s2 : raySphereIntersect ⟨-8, 5, -13⟩ ⟨0, -1, 0⟩ ⟨⟨0, 4, -12⟩, 2.0, water⟩ =
    (false, 0) := by
  norm_num [raySphereIntersect, sphereD2, sphereTca, Vec3.dot, Vec3.sub]

theorem evalA_s3 : raySphereIntersect ⟨-8, 5, -13⟩ ⟨0, -1, 0⟩ ⟨⟨2, 0, -18⟩, 2.5, shiny_red⟩ =
    (false, 0) := by
  norm_num [raySphereIntersect, sphereD2, sphereTca, Vec3.dot, Vec3.sub]

theorem evalA_s4 : raySphereIntersect ⟨-8, 5, -13⟩ ⟨0, -1, 0⟩ ⟨⟨5, 3, -20⟩, 3.5, bronze⟩ =
    (false, 0) := by
  norm_num [raySphereIntersect, sphereD2, sphereTca, Vec3.dot, Vec3.sub]

theorem evalA_cube : rayCubeIntersect ⟨-8, 5, -13⟩ ⟨0, -1, 0⟩ sceneCube =
    (false, FVal.fin 0, ⟨0, 0, 0⟩) := by
  norm_num [rayCubeIntersect, cubeSlabs, sceneCube, fdiv, FVal.flt, FVal.feq]

theorem evalA_aux : sceneIntersectAux ⟨-8, 5, -13⟩ ⟨0, -1, 0⟩ =
    (8, ⟨-8, -3, -13⟩, ⟨0, 1, 0⟩,
      { defaultMaterial with diffuse_color := ⟨0.4, 0.3, 0.2⟩ }) := by
  have hceil : ⌈-(13 / 2 : ℝ)⌉ = -6 := by rw [Int.ceil_neg]; norm_num
  norm_num [sceneIntersectAux, sphereStage, planeStage, sphereFoldStep, sphereList,
    raySphereIntersect, sphereD2, sphereTca, rayCubeIntersect, cubeSlabs, sceneCube,
    fdiv, FVal.flt, Vec3.dot, Vec3.sub, Vec3.add, Vec3.smul, planeDist, planePoint,
    codeChecker, rtrunc, defaultMaterial, List.foldl, hceil]

theorem evalB_s1 : raySphereIntersect ⟨0, -4, -13⟩ ⟨0, 1, 1⟩ ⟨⟨-2, 1, -15⟩, 1.5, marble⟩ =
    (false, 0) := by
  norm_num [raySphereIntersect, sphereD2, sphereTca, Vec3.dot, Vec3.sub]

theorem evalB_s2 : raySphereIntersect ⟨0, -4, -13⟩ ⟨0, 1, 1⟩ ⟨⟨0, 4, -12⟩, 2.0, water⟩ =
    (true, 9 - Real.sqrt 20) := by
  have h1 := sqrt20_lt
  have h2 := Real.sqrt_nonneg (20:ℝ)
  rw [raySphereIntersect, if_neg, if_pos]
  · rw [Prod.mk.injEq]
    refine ⟨rfl, ?_⟩
    rw [sphereT0, sphereTca, sphereD2]
    norm_num [Vec3.dot, Vec3.sub, sphereTca]
  · rw [sphereT0, sphereTca, sphereD2]
    norm_num [Vec3.dot, Vec3.sub, sphereTca]
    linarith
  · norm_num [sphereD2, sphereTca, Vec3.dot, Vec3.sub]

theorem evalB_s3 : raySphereIntersect ⟨0, -4, -13⟩ ⟨0, 1, 1⟩ ⟨⟨2, 0, -18⟩, 2.5, shiny_red⟩ =
    (false, 0) := by
  norm_num [raySphereIntersect, sphereD2, sphereTca, Vec3.dot, Vec3.sub]

theorem evalB_s4 : raySphereIntersect ⟨0, -4, -13⟩ ⟨0, 1, 1⟩ ⟨⟨5, 3, -20⟩, 3.5, bronze⟩ =
    (false, 0) := by
  norm_num [raySphereIntersect, sphereD2, sphereTca, Vec3.dot, Vec3.sub]

theorem evalB_cube : rayCubeIntersect ⟨0, -4, -13⟩ ⟨0, 1, 1⟩ sceneCube =
    (true, FVal.fin 2, ⟨0, 1, 1⟩) := by
  norm_num [rayCubeIntersect, cubeSlabs, sceneCube, fdiv, FVal.flt, FVal.feq]

theorem sphereFoldStep_miss (o d : Vec3) (st : ℝ × Vec3 × Vec3 × Material) (s : Sphere)
    (h : raySphereIntersect o d s = (false, 0)) : sphereFoldStep o d st s = st := by
  rw [sphereFoldStep, h]
  exact if_pos (Or.inl rfl)

theorem sphereFoldStep_take (o d : Vec3) (st : ℝ × Vec3 × Vec3 × Material) (s : Sphere)
    (dd : ℝ) (h : raySphereIntersect o d s = (true, dd)) (hle : ¬ dd > st.1) :
    sphereFoldStep o d st s =
      (dd, o.add (d.smul dd), ((o.add (d.smul dd)).sub s.center).normalized, s.material) := by
  rw [sphereFoldStep, h, if_neg (by simp [hle])]

theorem evalB_plane : planeStage ⟨0, -4, -13⟩ ⟨0, 1, 1⟩ =
    (1e10, ⟨0, 0, 0⟩, ⟨0, 0, 0⟩, defaultMaterial) := by
  norm_num [planeStage, planeDist, planePoint, Vec3.add, Vec3.smul]

theorem evalB_aux : sceneIntersectAux ⟨0, -4, -13⟩ ⟨0, 1, 1⟩ =
    (2, ⟨0, -2, -11⟩, ⟨0, 1, 1⟩, water) := by
  have h1 := sqrt20_lt
  have h2 := Real.sqrt_nonneg (20:ℝ)
  have hst1 : sphereStage ⟨0, -4, -13⟩ ⟨0, 1, 1⟩ =
      (9 - Real.sqrt 20,
       (Vec3.mk 0 (-4) (-13)).add ((Vec3.mk 0 1 1).smul (9 - Real.sqrt 20)),
       (((Vec3.mk 0 (-4) (-13)).add ((Vec3.mk 0 1 1).smul (9 - Real.sqrt 20))).sub
         ⟨0, 4, -12⟩).normalized,
       water) := by
    rw [sphereStage, evalB_plane]
    simp only [sphereList, List.foldl_cons, List.foldl_nil]
    rw [sphereFoldStep_miss _ _ _ _ evalB_s1,
      sphereFoldStep_take _ _ _ _ _ evalB_s2 (by norm_num; linarith),
      sphereFoldStep_miss _ _ _ _ evalB_s3,
      sphereFoldStep_miss _ _ _ _ evalB_s4]
  simp only [sceneIntersectAux]
  rw [hst1, evalB_cube]
  rw [if_pos ⟨rfl, by simp only [FVal.flt]; norm_num; linarith⟩]
  norm_num [FVal.toReal, Vec3.add, Vec3.smul, sceneCube]

theorem evalC_cube : rayCubeIntersect ⟨-0.9, -1, -8.9995⟩ ⟨0, 0, -1⟩ sceneCube =
    (true, FVal.fin 0.0005, ⟨0, 0, 1⟩) := by
  norm_num [rayCubeIntersect, cubeSlabs, sceneCube, fdiv, FVal.flt, FVal.feq]

theorem evalC_aux : sceneIntersectAux ⟨-0.9, -1, -8.9995⟩ ⟨0, 0, -1⟩ =
    (0.0005, ⟨-0.9, -1, -9⟩, ⟨0, 0, 1⟩, water) := by
  norm_num [sceneIntersectAux, sphereStage, planeStage, sphereFoldStep, sphereList,
    raySphereIntersect, sphereD2, sphereTca, rayCubeIntersect, cubeSlabs, sceneCube,
    fdiv, FVal.flt, FVal.feq, FVal.toReal, Vec3.dot, Vec3.sub, Vec3.add, Vec3.smul,
    planeDist, planePoint, List.foldl]

/-! ## Plane-nearest scenarios -/

theorem planeNearest_aux (o d : Vec3) (h : PlaneNearest o d) :
    sceneIntersectAux o d = (planeDist o d, planePoint o d, ⟨0, 1, 0⟩,
      { defaultMaterial with diffuse_color := codeChecker (planePoint o d) }) := by
  obtain ⟨hP, hs, hc⟩ := h
  have hplane : planeStage o d = (planeDist o d, planePoint o d, ⟨0, 1, 0⟩,
      { defaultMaterial with diffuse_color := codeChecker (planePoint o d) }) := by
    rw [planeStage, if_pos hP.1, if_pos hP.2]
  have hstep : ∀ s ∈ sphereList, ∀ st : ℝ × Vec3 × Vec3 × Material,
      st.1 = planeDist o d → sphereFoldStep o d st s = st := by
    intro s hs' st hst
    rw [sphereFoldStep]
    rcases hr : raySphereIntersect o d s with ⟨hit, dd⟩
    cases hit
    · exact if_pos (Or.inl rfl)
    · refine if_pos (Or.inr ?_)
      have hlt := hs s hs' (by rw [hr])
      rw [hr] at hlt
      rw [hst]
      exact hlt
  have e1 : sphereFoldStep o d (planeStage o d) ⟨⟨-2, 1, -15⟩, 1.5, marble⟩ =
      planeStage o d :=
    hstep _ (by simp [sphereList]) _ (by rw [hplane])
  have e2 : sphereFoldStep o d (planeStage o d) ⟨⟨0, 4, -12⟩, 2.0, water⟩ =
      planeStage o d :=
    hstep _ (by simp [sphereList]) _ (by rw [hplane])
  have e3 : sphereFoldStep o d (planeStage o d) ⟨⟨2, 0, -18⟩, 2.5, shiny_red⟩ =
      planeStage o d :=
    hstep _ (by simp [sphereList]) _ (by rw [hplane])
  have e4 : sphereFoldStep o d (planeStage o d) ⟨⟨5, 3, -20⟩, 3.5, bronze⟩ =
      planeStage o d :=
    hstep _ (by simp [sphereList]) _ (by rw [hplane])
  have hst1 : sphereStage o d = planeStage o d := by
    rw [sphereStage]
    simp only [sphereList, List.foldl_cons, List.foldl_nil]
    rw [e1, e2, e3, e4]
  simp only [sceneIntersectAux]
  rw [hst1, hplane, if_neg]
  intro hcon
  apply hc
  refine ⟨hcon.1, ?_⟩
  exact hcon.2

theorem planeNearestA : PlaneNearest ⟨-8, 5, -13⟩ ⟨0, -1, 0⟩ := by
  refine ⟨?_, ?_, ?_⟩
  · norm_num [PlaneAccept, planeDist, planePoint, Vec3.add, Vec3.smul]
  · intro s hs hhit
    simp only [sphereList, List.mem_cons, List.not_mem_nil, or_false] at hs
    rcases hs with rfl | rfl | rfl | rfl
    · rw [evalA_s1] at hhit; exact absurd hhit (by simp)
    · rw [evalA_s2] at hhit; exact absurd hhit (by simp)
    · rw [evalA_s3] at hhit; exact absurd hhit (by simp)
    · rw [evalA_s4] at hhit; exact absurd hhit (by simp)
  · rw [evalA_cube]
    simp

/-- C8 (amended): for an accepted nearest ground-plane hit the diffuse
color follows the checkerboard parity formula with C++ `int(...)`
TRUNCATION TOWARD ZERO of `0.5*x + 1000` and `0.5*z` (equal to the floor
only when the argument is nonnegative or an integer; for a negative
non-integer `0.5*z` the parity is the opposite of the floor-based one). -/
theorem plane_checker_amended (orig dir : Vec3) (h : PlaneNearest orig dir) :
    (sceneIntersect orig dir).material.diffuse_color =
      codeChecker (planePoint orig dir) := by
  rw [sceneIntersect]
  dsimp only
  rw [planeNearest_aux orig dir h]

/-- Witness for C8 (amended) at the straight-down ray from
`(-8, 5, -13)`. -/
theorem plane_checker_amended_witness :
    (sceneIntersect ⟨-8, 5, -13⟩ ⟨0, -1, 0⟩).material.diffuse_color =
      codeChecker (planePoint ⟨-8, 5, -13⟩ ⟨0, -1, 0⟩) :=
  plane_checker_amended ⟨-8, 5, -13⟩ ⟨0, -1, 0⟩ planeNearestA

/-- Counterexample for C8: the plane hit point `(-8, -3, -13)` has
`0.5*z = -6.5`, a negative non-integer; the code truncates it to `-6`
(even parity sum 990, color `{.4,.3,.2}`), while the claimed floor-based
formula gives `-7` (odd parity sum 989, color `{.4,.4,.4}`). -/
theorem plane_checker_cex :
    (sceneIntersect ⟨-8, 5, -13⟩ ⟨0, -1, 0⟩).hit = true ∧
    (sceneIntersect ⟨-8, 5, -13⟩ ⟨0, -1, 0⟩).point = ⟨-8, -3, -13⟩ ∧
    (sceneIntersect ⟨-8, 5, -13⟩ ⟨0, -1, 0⟩).material.diffuse_color = ⟨0.4, 0.3, 0.2⟩ ∧
    specChecker ⟨-8, -3, -13⟩ = ⟨0.4, 0.4, 0.4⟩ ∧
    Vec3.mk 0.4 0.3 0.2 ≠ Vec3.mk 0.4 0.4 0.4 := by
  have ha := evalA_aux
  refine ⟨?_, ?_, ?_, ?_, ?_⟩
  · rw [sceneIntersect]
    dsimp only
    rw [ha, decide_eq_true_eq]
    norm_num
  · rw [sceneIntersect]
    dsimp only
    rw [ha]
  · rw [sceneIntersect]
    dsimp only
    rw [ha]
  · have hfloor : ⌊-(13 / 2 : ℝ)⌋ = -7 := by
      rw [Int.floor_eq_iff]
      norm_num
    norm_num [specChecker, hfloor]
  · simp only [ne_eq, Vec3.mk.injEq, not_and]
    intro _ hcon
    norm_num at hcon

/-- C10: when the ground plane is the nearest hit the returned material
is the default-constructed `Material` with only the diffuse color
replaced by the checker shade — refractive index 1, albedo `{2,0,0,0}`,
specular exponent 0 — so the shading combination reduces to the diffuse
term doubled, with no specular, reflected, or refracted contribution. -/
theorem plane_material_default (orig dir : Vec3) (h : PlaneNearest orig dir) :
    (sceneIntersect orig dir).material =
      { refractive_index := 1, albedo0 := 2, albedo1 := 0, albedo2 := 0, albedo3 := 0,
        diffuse_color := codeChecker (planePoint orig dir), specular_exponent := 0 } ∧
    ∀ (dli sli : ℝ) (rc rfc : Vec3),
      shadeCombine (sceneIntersect orig dir).material dli sli rc rfc =
        (codeChecker (planePoint orig dir)).smul (dli * 2) := by
  have hm : (sceneIntersect orig dir).material =
      { refractive_index := 1, albedo0 := 2, albedo1 := 0, albedo2 := 0, albedo3 := 0,
        diffuse_color := codeChecker (planePoint orig dir), specular_exponent := 0 } := by
    rw [sceneIntersect]
    dsimp only
    rw [planeNearest_aux orig dir h]
    rfl
  refine ⟨hm, ?_⟩
  intro dli sli rc rfc
  rw [hm, shadeCombine]
  dsimp only
  simp only [Vec3.smul, Vec3.add, Vec3.mk.injEq]
  refine ⟨by ring, by ring, by ring⟩

/-- Witness for C10 at the straight-down ray from `(-8, 5, -13)`. -/
theorem plane_material_default_witness :
    (sceneIntersect ⟨-8, 5, -13⟩ ⟨0, -1, 0⟩).material =
      { refractive_index := 1, albedo0 := 2, albedo1 := 0, albedo2 := 0, albedo3 := 0,
        diffuse_color := codeChecker (planePoint ⟨-8, 5, -13⟩ ⟨0, -1, 0⟩),
        specular_exponent := 0 } :=
  (plane_material_default ⟨-8, 5, -13⟩ ⟨0, -1, 0⟩ planeNearestA).1

/-- Witness for C9 (amended) at the pixel color `(2, 3, 4)`. -/
theorem ppm_output_amended_witness :
    0 ≤ ppmByte ⟨2, 3, 4⟩ (Vec3.mk 2 3 4).y ∧ ppmByte ⟨2, 3, 4⟩ (Vec3.mk 2 3 4).y ≤ 255 :=
  ppm_output_amended.2.2.1 ⟨2, 3, 4⟩ (by norm_num) (by norm_num) (by norm_num) _
    (by simp [pixelBytes])

theorem raySphere_hit_eps (o d : Vec3) (s : Sphere)
    (h : (raySphereIntersect o d s).1 = true) : (raySphereIntersect o d s).2 > 0.001 := by
  rw [raySphereIntersect] at h ⊢
  by_cases h1 : sphereD2 o d s > s.radius * s.radius
  · rw [if_pos h1] at h
    exact absurd h (by simp)
  · rw [if_neg h1] at h ⊢
    by_cases h2 : sphereT0 o d s > 0.001
    · rw [if_pos h2]
      exact h2
    · rw [if_neg h2] at h ⊢
      by_cases h3 : sphereT1 o d s > 0.001
      · rw [if_pos h3]
        exact h3
      · rw [if_neg h3] at h
        exact absurd h (by simp)

theorem foldr_min_cases (l : List ℝ) (b : ℝ) : l.foldr min b = b ∨ l.foldr min b ∈ l := by
  induction l with
  | nil => exact Or.inl rfl
  | cons a t ih =>
    rw [List.foldr_cons]
    rcases min_cases a (t.foldr min b) with ⟨heq, _⟩ | ⟨heq, _⟩
    · rw [heq]
      exact Or.inr (List.mem_cons_self a t)
    · rw [heq]
      rcases ih with hb | hm
      · exact Or.inl hb
      · exact Or.inr (List.mem_cons_of_mem a hm)

/-- C7 (amended): the plane test and the sphere test only accept
distances strictly above the 0.001 epsilon, but the box test as used by
`scene_intersect` only requires its distance to be positive (`tmin > 0`,
line 130), so box hits at distances in (0, 0.001] are accepted; every
nearest distance below the sentinel is still strictly positive. -/
theorem epsilon_invariant_amended (orig dir : Vec3) :
    (∀ s : Sphere, (raySphereIntersect orig dir s).1 = true →
        (raySphereIntersect orig dir s).2 > 0.001) ∧
    (PlaneAccept orig dir → planeDist orig dir > 0.001) ∧
    ((rayCubeIntersect orig dir sceneCube).1 = true →
        FVal.flt (FVal.fin 0) (rayCubeIntersect orig dir sceneCube).2.1) ∧
    (sceneNearestDist orig dir < 1e10 → 0 < sceneNearestDist orig dir) := by
  refine ⟨fun s => raySphere_hit_eps orig dir s, fun h => h.2.1, ?_, ?_⟩
  · intro h
    rw [rayCube_dist_eq _ _ _ h]
    exact ((rayCube_hit_iff _ _ _).mp h).2.2
  · intro hlt
    rw [sceneNearest_eq, specNearest] at hlt ⊢
    rcases foldr_min_cases
        (planeCandidates orig dir ++ sphereCandidates orig dir ++ cubeCandidates orig dir)
        1e10 with heq | hmem
    · rw [heq] at hlt
      norm_num at hlt
    · set v := (planeCandidates orig dir ++ sphereCandidates orig dir ++
        cubeCandidates orig dir).foldr min 1e10 with hv
      rw [List.mem_append, List.mem_append] at hmem
      rcases hmem with (hp | hs) | hc
      · rw [planeCandidates] at hp
        split_ifs at hp with hP
        · rw [List.mem_singleton] at hp
          rw [hp]
          linarith [hP.2.1]
        · exact absurd hp (List.not_mem_nil _)
      · rw [sphereCandidates, List.mem_filterMap] at hs
        obtain ⟨s, _, hf⟩ := hs
        simp only at hf
        by_cases hh : (raySphereIntersect orig dir s).1 = true
        · rw [if_pos hh, Option.some.injEq] at hf
          rw [← hf]
          linarith [raySphere_hit_eps orig dir s hh]
        · rw [if_neg hh] at hf
          exact absurd hf (by simp)
      · rw [cubeCandidates] at hc
        have hshape := cubeHit_shape orig dir sceneCube
        rcases hrc : rayCubeIntersect orig dir sceneCube with ⟨hit, dist, nrm⟩
        rw [hrc] at hc
        cases hit
        · cases dist <;> simp at hc
        · cases dist with
          | fin r =>
            simp only [List.mem_singleton] at hc
            have hs2 := hshape (by rw [hrc])
            rw [hrc] at hs2
            rcases hs2 with ⟨r', hr', hpos⟩ | hp
            · simp only [FVal.fin.injEq] at hr'
              rw [hc, hr']
              exact hpos
            · exact absurd hp (by simp)
          | pinf => simp at hc
          | ninf => simp at hc
          | nan => simp at hc

/-- Counterexample for C7: from `(-0.9, -1, -8.9995)` straight toward
the cube's front face the box reports distance 0.0005, `scene_intersect`
accepts it and reports a hit — an accepted hit distance not above the
0.001 epsilon. -/
theorem epsilon_invariant_cex :
    sceneNearestDist ⟨-0.9, -1, -8.9995⟩ ⟨0, 0, -1⟩ = 0.0005 ∧
    (sceneIntersect ⟨-0.9, -1, -8.9995⟩ ⟨0, 0, -1⟩).hit = true ∧
    ¬((0.0005 : ℝ) > 0.001) := by
  have hc := evalC_aux
  refine ⟨by rw [sceneNearestDist, hc], ?_, by norm_num⟩
  rw [sceneIntersect]
  dsimp only
  rw [hc, decide_eq_true_eq]
  norm_num

/-- Witness for C7 (amended): a sphere hit, a plane acceptance, a box
hit, and a sub-sentinel nearest distance, each at a concrete ray. -/
theorem epsilon_invariant_amended_witness :
    (raySphereIntersect ⟨0, -4, -13⟩ ⟨0, 1, 1⟩ ⟨⟨0, 4, -12⟩, 2.0, water⟩).2 > 0.001 ∧
    planeDist ⟨-8, 5, -13⟩ ⟨0, -1, 0⟩ > 0.001 ∧
    FVal.flt (FVal.fin 0) (rayCubeIntersect ⟨-0.9, -1, -8.9995⟩ ⟨0, 0, -1⟩ sceneCube).2.1 ∧
    0 < sceneNearestDist ⟨-8, 5, -13⟩ ⟨0, -1, 0⟩ := by
  refine ⟨(epsilon_invariant_amended ⟨0, -4, -13⟩ ⟨0, 1, 1⟩).1 _ (by rw [evalB_s2]),
    (epsilon_invariant_amended ⟨-8, 5, -13⟩ ⟨0, -1, 0⟩).2.1 planeNearestA.1,
    (epsilon_invariant_amended ⟨-0.9, -1, -8.9995⟩ ⟨0, 0, -1⟩).2.2.1 (by rw [evalC_cube]),
    (epsilon_invariant_amended ⟨-8, 5, -13⟩ ⟨0, -1, 0⟩).2.2.2 ?_⟩
  rw [sceneNearestDist, evalA_aux]
  norm_num

/-! ## Hit normals -/

theorem norm_smul_abs (a : Vec3) (t : ℝ) : (a.smul t).norm = |t| * a.norm := by
  rw [Vec3.norm, Vec3.norm, Vec3.smul]
  dsimp only
  rw [show a.x * t * (a.x * t) + a.y * t * (a.y * t) + a.z * t * (a.z * t) =
    t ^ 2 * (a.x * a.x + a.y * a.y + a.z * a.z) from by ring]
  rw [Real.sqrt_mul (sq_nonneg t), Real.sqrt_sq_eq_abs]

theorem vecNorm_nonneg (v : Vec3) : 0 ≤ v.norm := Real.sqrt_nonneg _

theorem normalized_norm (v : Vec3) (h : v.norm ≠ 0) : v.normalized.norm = 1 := by
  rw [Vec3.normalized, norm_smul_abs,
    abs_of_nonneg (div_nonneg zero_le_one (vecNorm_nonneg v))]
  field_simp

theorem raySphere_hit_cases (o d : Vec3) (s : Sphere)
    (h : (raySphereIntersect o d s).1 = true) :
    ¬(sphereD2 o d s > s.radius * s.radius) ∧
      ((raySphereIntersect o d s).2 = sphereT0 o d s ∨
        (raySphereIntersect o d s).2 = sphereT1 o d s) := by
  rw [raySphereIntersect] at h ⊢
  by_cases h1 : sphereD2 o d s > s.radius * s.radius
  · rw [if_pos h1] at h
    exact absurd h (by simp)
  · rw [if_neg h1] at h ⊢
    refine ⟨h1, ?_⟩
    by_cases h2 : sphereT0 o d s > 0.001
    · rw [if_pos h2]
      exact Or.inl rfl
    · rw [if_neg h2] at h ⊢
      by_cases h3 : sphereT1 o d s > 0.001
      · rw [if_pos h3]
        exact Or.inr rfl
      · rw [if_neg h3] at h
        exact absurd h (by simp)

theorem sphere_point_on_sphere (o d : Vec3) (s : Sphere) (hd : d.norm = 1) (t : ℝ)
    (ht : t = sphereT0 o d s ∨ t = sphereT1 o d s)
    (hle : ¬(sphereD2 o d s > s.radius * s.radius)) :
    ((o.add (d.smul t)).sub s.center).dot ((o.add (d.smul t)).sub s.center) =
      s.radius * s.radius := by
  have hdd : d.dot d = 1 := by
    have h2 : Real.sqrt (d.dot d) = 1 := by rw [← norm_eq_sqrt_dot, hd]
    have := Real.mul_self_sqrt (dot_self_nonneg d)
    rw [h2] at this
    linarith
  have hthc : Real.sqrt (s.radius * s.radius - sphereD2 o d s) *
      Real.sqrt (s.radius * s.radius - sphereD2 o d s) =
      s.radius * s.radius - sphereD2 o d s :=
    Real.mul_self_sqrt (by linarith [not_lt.mp hle])
  have key : ∀ u : ℝ, ((o.add (d.smul u)).sub s.center).dot ((o.add (d.smul u)).sub s.center)
      = u * u * (d.dot d) - 2 * u * sphereTca o d s +
        (s.center.sub o).dot (s.center.sub o) := by
    intro u
    simp only [Vec3.dot, Vec3.add, Vec3.sub, Vec3.smul, sphereTca]
    ring
  have hLL : (s.center.sub o).dot (s.center.sub o) =
      sphereD2 o d s + sphereTca o d s * sphereTca o d s := by
    rw [sphereD2]
    ring
  rcases ht with rfl | rfl
  · rw [key, hdd, hLL, sphereT0]
    linear_combination hthc
  · rw [key, hdd, hLL, sphereT1]
    linear_combination hthc

theorem feq_refl_of_flt_zero {v : FVal} (h : FVal.flt (FVal.fin 0) v) : FVal.feq v v := by
  cases v <;> simp_all [FVal.flt, FVal.feq]

theorem tminF_mem (o d : Vec3) (c : Cube) :
    (cubeSlabs o d c).tminF = fdiv (c.center.x - c.size / 2 - o.x) d.x ∨
    (cubeSlabs o d c).tminF = fdiv (c.center.x + c.size / 2 - o.x) d.x ∨
    (cubeSlabs o d c).tminF = fdiv (c.center.y - c.size / 2 - o.y) d.y ∨
    (cubeSlabs o d c).tminF = fdiv (c.center.y + c.size / 2 - o.y) d.y ∨
    (cubeSlabs o d c).tminF = fdiv (c.center.z - c.size / 2 - o.z) d.z ∨
    (cubeSlabs o d c).tminF = fdiv (c.center.z + c.size / 2 - o.z) d.z := by
  have eF : (cubeSlabs o d c).tminF =
      if FVal.flt (cubeSlabs o d c).tmin1 (cubeSlabs o d c).tzn
      then (cubeSlabs o d c).tzn else (cubeSlabs o d c).tmin1 := rfl
  have e1 : (cubeSlabs o d c).tmin1 =
      if FVal.flt (cubeSlabs o d c).txn (cubeSlabs o d c).tyn
      then (cubeSlabs o d c).tyn else (cubeSlabs o d c).txn := rfl
  have exn : (cubeSlabs o d c).txn =
      if FVal.flt (fdiv (c.center.x + c.size / 2 - o.x) d.x)
          (fdiv (c.center.x - c.size / 2 - o.x) d.x)
      then fdiv (c.center.x + c.size / 2 - o.x) d.x
      else fdiv (c.center.x - c.size / 2 - o.x) d.x := rfl
  have eyn : (cubeSlabs o d c).tyn =
      if FVal.flt (fdiv (c.center.y + c.size / 2 - o.y) d.y)
          (fdiv (c.center.y - c.size / 2 - o.y) d.y)
      then fdiv (c.center.y + c.size / 2 - o.y) d.y
      else fdiv (c.center.y - c.size / 2 - o.y) d.y := rfl
  have ezn : (cubeSlabs o d c).tzn =
      if FVal.flt (fdiv (c.center.z + c.size / 2 - o.z) d.z)
          (fdiv (c.center.z - c.size / 2 - o.z) d.z)
      then fdiv (c.center.z + c.size / 2 - o.z) d.z
      else fdiv (c.center.z - c.size / 2 - o.z) d.z := rfl
  rw [eF]
  split_ifs with hA
  · rw [ezn]
    split_ifs with hB
    · exact Or.inr (Or.inr (Or.inr (Or.inr (Or.inr rfl))))
    · exact Or.inr (Or.inr (Or.inr (Or.inr (Or.inl rfl))))
  · rw [e1]
    split_ifs with hC
    · rw [eyn]
      split_ifs with hD
      · exact Or.inr (Or.inr (Or.inr (Or.inl rfl)))
      · exact Or.inr (Or.inr (Or.inl rfl))
    · rw [exn]
      split_ifs with hD
      · exact Or.inr (Or.inl rfl)
      · exact Or.inl rfl

theorem rayCube_normal_eq (o d : Vec3) (c : Cube)
    (h : (rayCubeIntersect o d c).1 = true) :
    (rayCubeIntersect o d c).2.2 =
      ⟨if FVal.feq (cubeSlabs o d c).tminF (fdiv (c.center.x - c.size / 2 - o.x) d.x) ∨
          FVal.feq (cubeSlabs o d c).tminF (fdiv (c.center.x + c.size / 2 - o.x) d.x)
        then 1 else 0,
       if FVal.feq (cubeSlabs o d c).tminF (fdiv (c.center.y - c.size / 2 - o.y) d.y) ∨
          FVal.feq (cubeSlabs o d c).tminF (fdiv (c.center.y + c.size / 2 - o.y) d.y)
        then 1 else 0,
       if FVal.feq (cubeSlabs o d c).tminF (fdiv (c.center.z - c.size / 2 - o.z) d.z) ∨
          FVal.feq (cubeSlabs o d c).tminF (fdiv (c.center.z + c.size / 2 - o.z) d.z)
        then 1 else 0⟩ := by
  rcases (rayCube_hit_iff o d c).mp h with ⟨hd1, hd2, hp⟩
  rw [cubeDisjointXY] at hd1
  rw [cubeDisjointZ] at hd2
  rw [rayCubeIntersect, if_neg hd1, if_neg hd2, if_pos hp]

/-- C6 (amended): the ground-plane normal `{0,1,0}` is unit; a sphere
hit from a unit-length ray direction carries a unit normal; a box hit
carries a normal whose components are each 0 or 1 with at least one 1 —
but it is one-hot (hence unit) only when a single axis matches `tmin`:
an exact edge or corner entry sets several components. -/
theorem hit_normals_amended (orig dir : Vec3) (s : Sphere) (c : Cube) :
    Vec3.norm ⟨0, 1, 0⟩ = 1 ∧
    (dir.norm = 1 → 0 < s.radius → (raySphereIntersect orig dir s).1 = true →
      (((orig.add (dir.smul (raySphereIntersect orig dir s).2)).sub
        s.center).normalized).norm = 1) ∧
    ((rayCubeIntersect orig dir c).1 = true →
      (((rayCubeIntersect orig dir c).2.2.x = 0 ∨ (rayCubeIntersect orig dir c).2.2.x = 1) ∧
       ((rayCubeIntersect orig dir c).2.2.y = 0 ∨ (rayCubeIntersect orig dir c).2.2.y = 1) ∧
       ((rayCubeIntersect orig dir c).2.2.z = 0 ∨ (rayCubeIntersect orig dir c).2.2.z = 1)) ∧
      (rayCubeIntersect orig dir c).2.2 ≠ ⟨0, 0, 0⟩) := by
  refine ⟨by norm_num [Vec3.norm], ?_, ?_⟩
  · intro hd hr hh
    obtain ⟨hle, ht⟩ := raySphere_hit_cases orig dir s hh
    have hq := sphere_point_on_sphere orig dir s hd _ ht hle
    have hqnorm : ((orig.add (dir.smul (raySphereIntersect orig dir s).2)).sub
        s.center).norm = s.radius := by
      rw [norm_eq_sqrt_dot, hq, Real.sqrt_mul_self hr.le]
    exact normalized_norm _ (by rw [hqnorm]; exact ne_of_gt hr)
  · intro hh
    have hn := rayCube_normal_eq orig dir c hh
    constructor
    · rw [hn]
      dsimp only
      refine ⟨?_, ?_, ?_⟩ <;> split_ifs <;> simp
    · have hp : FVal.flt (FVal.fin 0) (cubeSlabs orig dir c).tminF :=
        ((rayCube_hit_iff orig dir c).mp hh).2.2
      have hrefl := feq_refl_of_flt_zero hp
      intro hcon
      rcases tminF_mem orig dir c with hm | hm | hm | hm | hm | hm
      · have hx : (rayCubeIntersect orig dir c).2.2.x = 1 := by
          rw [hn]
          exact if_pos (Or.inl (by rw [← hm]; exact hrefl))
        rw [hcon] at hx
        norm_num at hx
      · have hx : (rayCubeIntersect orig dir c).2.2.x = 1 := by
          rw [hn]
          exact if_pos (Or.inr (by rw [← hm]; exact hrefl))
        rw [hcon] at hx
        norm_num at hx
      · have hy : (rayCubeIntersect orig dir c).2.2.y = 1 := by
          rw [hn]
          exact if_pos (Or.inl (by rw [← hm]; exact hrefl))
        rw [hcon] at hy
        norm_num at hy
      · have hy : (rayCubeIntersect orig dir c).2.2.y = 1 := by
          rw [hn]
          exact if_pos (Or.inr (by rw [← hm]; exact hrefl))
        rw [hcon] at hy
        norm_num at hy
      · have hz : (rayCubeIntersect orig dir c).2.2.z = 1 := by
          rw [hn]
          exact if_pos (Or.inl (by rw [← hm]; exact hrefl))
        rw [hcon] at hz
        norm_num at hz
      · have hz : (rayCubeIntersect orig dir c).2.2.z = 1 := by
          rw [hn]
          exact if_pos (Or.inr (by rw [← hm]; exact hrefl))
        rw [hcon] at hz
        norm_num at hz

/-- Witness for C6 (amended): the sphere normal of the head-on hit on
the unit sphere at `(0,0,-5)` is unit, and the box normal of the C7
counterexample ray has 0/1 components and is nonzero. -/
theorem hit_normals_amended_witness :
    (((Vec3.mk 0 0 0).add ((Vec3.mk 0 0 (-1)).smul
        (raySphereIntersect ⟨0, 0, 0⟩ ⟨0, 0, -1⟩ ⟨⟨0, 0, -5⟩, 1, defaultMaterial⟩).2)).sub
      (Vec3.mk 0 0 (-5))).normalized.norm = 1 ∧
    (rayCubeIntersect ⟨-0.9, -1, -8.9995⟩ ⟨0, 0, -1⟩ sceneCube).2.2 ≠ ⟨0, 0, 0⟩ := by
  constructor
  · refine (hit_normals_amended ⟨0, 0, 0⟩ ⟨0, 0, -1⟩ ⟨⟨0, 0, -5⟩, 1, defaultMaterial⟩
      sceneCube).2.1 ?_ (by norm_num) ?_
    · rw [Vec3.norm]
      norm_num
    · rw [raySphereIntersect, if_neg, if_pos]
      · rw [sphereT0, sphereTca, sphereD2]
        norm_num [Vec3.dot, Vec3.sub, sphereTca, Real.sqrt_one]
      · norm_num [sphereD2, sphereTca, Vec3.dot, Vec3.sub]
  · exact ((hit_normals_amended ⟨-0.9, -1, -8.9995⟩ ⟨0, 0, -1⟩
      ⟨⟨0, 0, -5⟩, 1, defaultMaterial⟩ sceneCube).2.2 (by rw [evalC_cube])).2

/-- Counterexample for C6: the ray from `(0,-4,-13)` along `(0,1,1)`
enters the cube exactly along its bottom-back edge; `tmin` matches both
the y and z slab bounds, so `scene_intersect` returns the hit with
normal `(0,1,1)`, whose norm is `sqrt 2`, not 1. -/
theorem hit_normals_cex :
    (sceneIntersect ⟨0, -4, -13⟩ ⟨0, 1, 1⟩).hit = true ∧
    (sceneIntersect ⟨0, -4, -13⟩ ⟨0, 1, 1⟩).normal = ⟨0, 1, 1⟩ ∧
    (sceneIntersect ⟨0, -4, -13⟩ ⟨0, 1, 1⟩).normal.norm ≠ 1 := by
  have hb := evalB_aux
  refine ⟨?_, ?_, ?_⟩
  · rw [sceneIntersect]
    dsimp only
    rw [hb, decide_eq_true_eq]
    norm_num
  · rw [sceneIntersect]
    dsimp only
    rw [hb]
  · rw [sceneIntersect]
    dsimp only
    rw [hb]
    show Vec3.norm ⟨0, 1, 1⟩ ≠ 1
    rw [Vec3.norm]
    norm_num [Real.sqrt_eq_one]

end
